import Mathlib

/-!
Shallow embedding of the core of `nomad_watch.py` (a Nomad job-lifecycle
observer): the event cache (`Db`), the job watchers, the per-task log
tail heuristic (`Logger.taskout`), the aggregate exit-code mapper
(`AllocWorkers.exitcode`), the success classifiers and the evaluation
waiter (`nomad_watch_eval`).  Python dictionaries are modelled as
association lists with Python dict update semantics (replace in place,
else append); optional JSON fields are `Option`; machine integers are
`Int`/`Nat` (no overflow is relevant here).  Helper predicates that live
in the `nomadlib` module (absent from the sources) are modelled from the
specification and marked as such.
-/

namespace NomadWatch

/-- Lookup in an association list, mirroring a Python dict `get`. -/
def alookup {α : Type} : List (String × α) → String → Option α
  | [], _ => none
  | (k1, v) :: rest, k => if k1 = k then some v else alookup rest k

/-- Update an association list at a key, mirroring a Python dict
assignment: the first binding of the key is replaced in place, otherwise
the new binding is appended at the end. -/
def assocSet {α : Type} : List (String × α) → String → α → List (String × α)
  | [], k, v => [(k, v)]
  | (k1, v1) :: rest, k, v =>
    if k1 = k then (k, v) :: rest else (k1, v1) :: assocSet rest k v

/-- One entry of `TaskStates[task].Events`: only the fields the watcher
reads (`Type`, `Time`, `DisplayMessage`, `ExitCode`). The JSON key
`Type` clashes with a Lean keyword, hence the trailing underscore. -/
structure TaskEventR where
  Type_ : String
  Time : Int
  DisplayMessage : String
  ExitCode : Option Int
deriving DecidableEq

/-- One entry of an allocation `TaskStates` map. -/
structure TaskStateR where
  State : String
  Events : List TaskEventR
deriving DecidableEq

/-- Modelled from the spec: `nomadlib.AllocTaskState.was_started` is not
under src; per the spec it holds when the task has a `Started` event in
its TaskState events. -/
def TaskStateR.was_started (ts : TaskStateR) : Bool :=
  ts.Events.any (fun e => e.Type_ == "Started")

/-- A task `Lifecycle` block. -/
structure LifecycleR where
  Hook : String
  Sidecar : Option Bool
deriving DecidableEq

/-- Modelled from the spec: `nomadlib.LifecycleR.get_sidecar` is not
under src; it reads the optional `Sidecar` flag, absent meaning false. -/
def LifecycleR.get_sidecar (lc : LifecycleR) : Bool :=
  lc.Sidecar.getD false

/-- A task of a task group: name and optional lifecycle (a missing
`Lifecycle` key and a null one are both modelled as `none`). -/
structure TaskR where
  Name : String
  Lifecycle : Option LifecycleR
deriving DecidableEq

/-- A task group of a job. -/
structure TaskGroupR where
  Name : String
  Tasks : List TaskR
deriving DecidableEq

/-- A Job record: the fields the watcher reads. -/
structure JobR where
  ID : String
  Namespace : String
  ModifyIndex : Int
  JobModifyIndex : Int
  Version : Int
  Status : String
  TaskGroups : List TaskGroupR
deriving DecidableEq

/-- Modelled from the spec: `nomadlib.Job.is_dead` is not under src; per
the spec the Job record shows `Status == dead`. -/
def JobR.is_dead (j : JobR) : Bool :=
  j.Status == "dead"

/-- An Evaluation record: the fields the watcher reads.
`JobModifyIndex` is an optional JSON field read with default `-1`. -/
structure EvalR where
  ID : String
  Namespace : String
  ModifyIndex : Int
  JobModifyIndex : Option Int
  Status : String
  StatusDescription : String
deriving DecidableEq

/-- Modelled from the spec: `nomadlib.Eval.is_pending` is not under src;
per the spec an Evaluation is active while its `Status` is pending. -/
def EvalR.is_pending (v : EvalR) : Bool :=
  v.Status == "pending"

/-- An Allocation record: the fields the watcher reads. `JobVersion` is
an optional JSON field read with default `-1`. -/
structure AllocR where
  ID : String
  Namespace : String
  ModifyIndex : Int
  EvalID : String
  TaskGroup : String
  ClientStatus : String
  JobVersion : Option Int
  TaskStates : List (String × TaskStateR)
deriving DecidableEq

/-- Modelled from the spec: `nomadlib.Alloc.is_pending_or_running` is
not under src; per the spec it holds when `ClientStatus` is `pending` or
`running`. -/
def AllocR.is_pending_or_running (a : AllocR) : Bool :=
  a.ClientStatus == "pending" || a.ClientStatus == "running"

/-- A Deployment record: the fields the watcher reads. -/
structure DeployR where
  ID : String
  Namespace : String
  ModifyIndex : Int
  Status : String
deriving DecidableEq

/-- The fixed exit codes of the `ExitCode` class. -/
def ExitCode.success : Int := 0

/-- Exit code for unrecoverable internal errors. -/
def ExitCode.exception : Int := 1

/-- Exit code for an interrupted watcher. -/
def ExitCode.interrupted : Int := 2

/-- Exit code when some task failed. -/
def ExitCode.any_failed_tasks : Int := 124

/-- Exit code when every task failed. -/
def ExitCode.all_failed_tasks : Int := 125

/-- Exit code when some task never finished. -/
def ExitCode.any_unfinished_tasks : Int := 126

/-- Exit code when there were no allocations at all. -/
def ExitCode.no_allocations : Int := 127

/-- `AllocWorkers.exitcode`: the aggregate exit-code mapper.  The input
is the list of per-task-handler captured exit codes across all
allocation workers, `none` when a task handler never captured one; the
source substitutes `-1` for those before classifying. -/
def AllocWorkers.exitcode (taskExitcodes : List (Option Int)) : Int :=
  let exitcodes : List Int := taskExitcodes.map (fun o => o.getD (-1))
  if exitcodes.length = 0 then ExitCode.no_allocations
  else if exitcodes.any (fun v => decide (v = -1)) then ExitCode.any_unfinished_tasks
  else if exitcodes.length = 1 then exitcodes.headI
  else if exitcodes.all (fun v => decide (v ≠ 0)) then ExitCode.all_failed_tasks
  else if exitcodes.any (fun v => decide (v ≠ 0)) then ExitCode.any_failed_tasks
  else ExitCode.success

/-- The list `E` of the spec: the per-task exit codes with `-1`
substituted for a task handler that never captured one. -/
def exitList (taskExitcodes : List (Option Int)) : List Int :=
  taskExitcodes.map (fun o => o.getD (-1))

/-- The event types of the Nomad event stream used by the watcher. -/
inductive EventType where
  | JobRegistered
  | JobDeregistered
  | EvaluationUpdated
  | AllocationUpdated
  | DeploymentStatusUpdate
deriving DecidableEq

/-- The payload of an event; its constructor is the event topic
(`EventTopic` in the source). -/
inductive EventPayload where
  | job (j : JobR)
  | eval (v : EvalR)
  | alloc (a : AllocR)
  | deploy (d : DeployR)
deriving DecidableEq

/-- An event of the Nomad event stream: a type tag and a per-topic
payload. -/
structure Event where
  type : EventType
  payload : EventPayload
deriving DecidableEq

/-- The payload field `e.data` with key `Namespace`. -/
def Event.Namespace (e : Event) : String :=
  match e.payload with
  | .job j => j.Namespace
  | .eval v => v.Namespace
  | .alloc a => a.Namespace
  | .deploy d => d.Namespace

/-- The payload field `e.data` with key `ModifyIndex`. -/
def Event.modifyIndex (e : Event) : Int :=
  match e.payload with
  | .job j => j.ModifyIndex
  | .eval v => v.ModifyIndex
  | .alloc a => a.ModifyIndex
  | .deploy d => d.ModifyIndex

/-- The mutable state of the `Db` event cache: the Job slot and the
per-kind maps keyed by `ID`. -/
structure Db where
  job : Option JobR
  evaluations : List (String × EvalR)
  allocations : List (String × AllocR)
  deployments : List (String × DeployR)
deriving DecidableEq

/-- `Db.select_is_in_db`: select events whose identity is already in the
database.  Note the source returns `False` for Job-topic events. -/
def Db.select_is_in_db (db : Db) (e : Event) : Bool :=
  match e.payload with
  | .eval v => (alookup db.evaluations v.ID).isSome
  | .alloc a => (alookup db.allocations a.ID).isSome
  | .deploy d => (alookup db.deployments d.ID).isSome
  | .job _ => false

/-- `Db._select_new_event`: select events of the configured namespace
which are newer than those in the database.  `ns` is the configured
`mynomad.namespace`. -/
def Db.select_new_event (ns : String) (db : Db) (e : Event) : Bool :=
  decide (e.Namespace = ns) &&
    (match e.payload with
     | .job j =>
       match db.job with
       | none => true
       | some cur => decide (j.ModifyIndex > cur.ModifyIndex)
     | .eval v =>
       match alookup db.evaluations v.ID with
       | none => true
       | some cur => decide (v.ModifyIndex > cur.ModifyIndex)
     | .alloc a =>
       match alookup db.allocations a.ID with
       | none => true
       | some cur => decide (a.ModifyIndex > cur.ModifyIndex)
     | .deploy d =>
       match alookup db.deployments d.ID with
       | none => true
       | some cur => decide (d.ModifyIndex > cur.ModifyIndex))

/-- `Db._add_event_to_db`: update database state to reflect a received
event. A `JobDeregistered` event on the Job topic clears the Job slot;
on the Evaluation topic it clears the Job slot and stores the
evaluation; Allocation and Deployment events overwrite their slot. -/
def Db.add_event_to_db (db : Db) (e : Event) : Db :=
  match e.payload with
  | .job j =>
    if e.type = EventType.JobDeregistered then { db with job := none }
    else { db with job := some j }
  | .eval v =>
    let db2 := if e.type = EventType.JobDeregistered then { db with job := none } else db
    { db2 with evaluations := assocSet db2.evaluations v.ID v }
  | .alloc a => { db with allocations := assocSet db.allocations a.ID a }
  | .deploy d => { db with deployments := assocSet db.deployments d.ID d }

/-- `Db.handle_event`: accept an event when it is new for the cache and
either already known by identity or selected by the callback; on
acceptance update the cache and report `true`. -/
def Db.handle_event (ns : String) (cb : Event → Bool) (db : Db) (e : Event) :
    Db × Bool :=
  if Db.select_new_event ns db e then
    if Db.select_is_in_db db e || cb e then (Db.add_event_to_db db e, true)
    else (db, false)
  else (db, false)

/-- `Db.handle_events`: fold `handle_event` over a batch, keeping the
accepted events in order. -/
def Db.handle_events (ns : String) (cb : Event → Bool) (db : Db) :
    List Event → Db × List Event
  | [] => (db, [])
  | e :: rest =>
    let r := Db.handle_event ns cb db e
    let rr := Db.handle_events ns cb r.1 rest
    (rr.1, if r.2 then e :: rr.2 else rr.2)

/-- The `ModifyIndex` of the cached record with the same identity as the
event, when one is cached: the quantity the per-kind selectors of
`Db._select_new_event` compare against. -/
def cachedModifyIndex (db : Db) (e : Event) : Option Int :=
  match e.payload with
  | .job _ => db.job.map (fun j => j.ModifyIndex)
  | .eval v => (alookup db.evaluations v.ID).map (fun r => r.ModifyIndex)
  | .alloc a => (alookup db.allocations a.ID).map (fun r => r.ModifyIndex)
  | .deploy d => (alookup db.deployments d.ID).map (fun r => r.ModifyIndex)

/-- `NomadJobWatcher.no_active_allocations_and_evaluations_and_deployments`:
no cached allocation is pending or running, no cached evaluation is
pending, and no cached deployment is in an active status. -/
def noActiveAllocationsEvaluationsDeployments (db : Db) : Bool :=
  if db.allocations.any (fun kv => kv.2.is_pending_or_running) then false
  else if db.evaluations.any (fun kv => kv.2.is_pending) then false
  else if db.deployments.any (fun kv =>
      decide (kv.2.Status ∈ (["initializing", "running", "pending", "blocked",
        "paused"] : List String))) then false
  else true

/-- The state of a `NomadJobWatcherUntilFinished` read by `finish_cb`:
the cache, the watcher job snapshot `self.job`, and the `foundjob` and
`purged` flags. -/
structure UntilFinished where
  db : Db
  job : JobR
  foundjob : Bool
  purged : Bool
deriving DecidableEq

/-- The tail of `NomadJobWatcherUntilFinished.finish_cb` after the
`foundjob` bookkeeping: with no active work left, a purging watcher
waits for the Job slot to be cleared, otherwise for the job snapshot to
be dead. -/
def UntilFinished.finish_cb_after (s : UntilFinished) : Bool :=
  if noActiveAllocationsEvaluationsDeployments s.db then
    if s.purged then
      if s.db.job.isNone then true else false
    else
      if s.job.is_dead then true else false
  else false

/-- `NomadJobWatcherUntilFinished.finish_cb`: returns the decision and
the updated state (only `foundjob` ever changes). -/
def UntilFinished.finish_cb (s : UntilFinished) : Bool × UntilFinished :=
  if s.db.job.isSome then
    let s2 := { s with foundjob := true }
    (UntilFinished.finish_cb_after s2, s2)
  else if s.foundjob = false then (false, s)
  else (UntilFinished.finish_cb_after s, s)

/-- Modelled from the spec: the aggregated job summary metrics returned
by `nomadlib.JobSummary.get_sum_summary` (not under src), summing the
per-group summaries of the scheduler summary endpoint. -/
structure JobSummarySummary where
  Queued : Int
  Complete : Int
  Failed : Int
  Running : Int
  Starting : Int
  Lost : Int
deriving DecidableEq

/-- `NomadJobWatcherUntilFinished.job_finished_successfully`:
`jobStatus` is the watcher job snapshot `Status`, `s` the aggregated
summary metrics fetched from the summary endpoint. -/
def job_finished_successfully (jobStatus : String) (s : JobSummarySummary) : Bool :=
  if jobStatus ≠ "dead" then false
  else
    decide (s.Queued = 0) && decide (s.Complete ≠ 0) && decide (s.Failed = 0) &&
      decide (s.Running = 0) && decide (s.Starting = 0) && decide (s.Lost = 0)

/-- `NomadJobWatcherUntilFinished.job_running_successfully`: on a dead
job delegates to `job_finished_successfully`. -/
def job_running_successfully (jobStatus : String) (s : JobSummarySummary) : Bool :=
  if jobStatus = "dead" then job_finished_successfully jobStatus s
  else
    decide (s.Queued = 0) && decide (s.Failed = 0) && decide (s.Running ≠ 0) &&
      decide (s.Starting = 0) && decide (s.Lost = 0)

/-- The `JobModifyIndex` of the cached evaluation of an allocation:
`self.db.evaluations.get(alloc.EvalID, \x7b\x7d).get("JobModifyIndex", -1)`. -/
def evalJobModifyIndex (evals : List (String × EvalR)) (id : String) : Int :=
  match alookup evals id with
  | none => -1
  | some v => v.JobModifyIndex.getD (-1)

/-- The allocations of one task group passing the job-version filter of
`NomadJobWatcherUntilStarted.job_is_started`, in cache order. -/
def groupAllocs (job : JobR) (db : Db) (g : TaskGroupR) : List AllocR :=
  (db.allocations.map (fun kv => kv.2)).filter (fun a =>
    a.TaskGroup == g.Name &&
      (decide (a.JobVersion.getD (-1) ≥ job.Version) ||
        decide (evalJobModifyIndex db.evaluations a.EvalID ≥ job.JobModifyIndex)))

/-- The first allocation of a stable descending sort by `ModifyIndex`:
the most recently modified allocation, earliest cache position winning
ties. -/
def newestAlloc : List AllocR → Option AllocR
  | [] => none
  | a :: rest =>
    some (rest.foldl (fun best x =>
      if x.ModifyIndex > best.ModifyIndex then x else best) a)

/-- The names of the tasks of an allocation whose task state was
started. -/
def startedtasks (a : AllocR) : List String :=
  (a.TaskStates.filter (fun kv => kv.2.was_started)).map (fun kv => kv.1)

/-- The names of the main tasks of a task group: no lifecycle, prestart
with sidecar, or poststart. -/
def allmaintasks (g : TaskGroupR) : List String :=
  (g.Tasks.filter (fun t =>
    match t.Lifecycle with
    | none => true
    | some lc => (lc.Hook == "prestart" && lc.get_sidecar) || lc.Hook == "poststart")).map
    (fun t => t.Name)

/-- The per-group loop of `NomadJobWatcherUntilStarted.job_is_started`:
`none` models the `assert len(allmaintasks) > 0` failure. -/
def job_is_started_go (job : JobR) (db : Db) : List TaskGroupR → Option Bool
  | [] => some true
  | g :: rest =>
    match newestAlloc (groupAllocs job db g) with
    | none => some false
    | some lastalloc =>
      if (allmaintasks g).length = 0 then none
      else if (allmaintasks g).any (fun n => !decide (n ∈ startedtasks lastalloc)) then
        some false
      else job_is_started_go job db rest

/-- `NomadJobWatcherUntilStarted.job_is_started`: a job with no task
groups is never started; otherwise every group needs a filtered
allocation whose main tasks all started. -/
def job_is_started (job : JobR) (db : Db) : Option Bool :=
  if job.TaskGroups.isEmpty then some false
  else job_is_started_go job db job.TaskGroups

/-- The mutable state of a `Logger` read by `taskout`: the ignore
deadline in nanoseconds (0 once disabled), the first-line flag and the
accumulated buffer. -/
structure LoggerState where
  ignoretime_ns : Nat
  first_line : Bool
  ignoredlines : List String
deriving DecidableEq

/-- `Logger.__init__` state: the deadline is `START_NS` plus the lines
timeout, zeroed when no tail is requested or the deadline already
passed. -/
def LoggerState.init (start_ns : Nat) (linesArg : Int) (lines_timeout_ns : Nat)
    (now : Nat) : LoggerState :=
  let ig := start_ns + lines_timeout_ns
  let ig := if linesArg < 0 ∨ ig < now then 0 else ig
  { ignoretime_ns := ig, first_line := true, ignoredlines := [] }

/-- Python list slicing `l[:n]` for a possibly negative `n`. -/
def pySliceTo {α : Type} (n : Int) (l : List α) : List α :=
  if 0 ≤ n then l.take n.toNat else l.take (l.length - n.natAbs)

/-- Python `str.rstrip()`: drop trailing whitespace. -/
def pyRstrip (s : String) : String :=
  String.mk ((s.data.reverse.dropWhile Char.isWhitespace).reverse)

/-- `Logger.taskout`: returns the new state and the lines printed by
the call.  While the deadline is set and not passed (or on the very
first call), the batch replaces the buffer trimmed to the leading
`linesArg` lines; on the first call past the deadline the buffer is
flushed before the batch and accumulation is disabled. -/
def Logger.taskout (linesArg : Int) (now : Nat) (s : LoggerState)
    (batch : List String) : LoggerState × List String :=
  if s.ignoretime_ns ≠ 0 ∧ (s.first_line = true ∨ now < s.ignoretime_ns) then
    ({ s with first_line := false, ignoredlines := pySliceTo linesArg batch }, [])
  else if s.ignoretime_ns ≠ 0 then
    ({ s with ignoredlines := [], ignoretime_ns := 0 },
      (s.ignoredlines ++ batch).map pyRstrip)
  else (s, batch.map pyRstrip)

/-- The inner loop of `nomad_watch_eval`: walk one batch, remembering
the last seen evaluation, breaking at the first non-pending one. -/
def watch_eval_inner (acc : Option EvalR) : List EvalR → Option EvalR
  | [] => acc
  | ev :: rest =>
    if ev.Status ≠ "pending" then some ev else watch_eval_inner (some ev) rest

/-- The outer loop of `nomad_watch_eval`: walk the batches, stopping
once a non-pending evaluation was seen. -/
def watch_eval_scan (acc : Option EvalR) : List (List EvalR) → Option EvalR
  | [] => acc
  | b :: bs =>
    match watch_eval_inner acc b with
    | some e => if e.Status ≠ "pending" then some e else watch_eval_scan (some e) bs
    | none => watch_eval_scan none bs

/-- `nomad_watch_eval` modelled on the consumed batches of evaluation
records: error when the stream ended with no event at all (the
`eval_ is not None` assertion) or when the final status is not
`complete` (the message carries the `StatusDescription`). -/
def nomad_watch_eval (evalid : String) (batches : List (List EvalR)) :
    Except String Unit :=
  match watch_eval_scan none batches with
  | none => Except.error "assertion failed: eval_ is not None"
  | some e =>
    if e.Status = "complete" then Except.ok ()
    else
      Except.error ("Evaluation " ++ evalid ++ " did not complete: " ++
        e.StatusDescription)

/-- A dead job record used by concrete instances. -/
def c2job : JobR :=
  { ID := "j1", Namespace := "default", ModifyIndex := 10, JobModifyIndex := 5,
    Version := 0, Status := "dead", TaskGroups := [] }

/-- Concrete watcher state: purge issued, Job record still cached and
dead, cache otherwise empty. -/
def c2state : UntilFinished :=
  { db := { job := some c2job, evaluations := [], allocations := [], deployments := [] },
    job := c2job, foundjob := false, purged := true }

/-- Concrete aggregated summary metrics: all complete but one
allocation still running. -/
def c7sum : JobSummarySummary :=
  { Queued := 0, Complete := 1, Failed := 0, Running := 5, Starting := 0, Lost := 0 }

/-- An older cached job record (event-cache instances). -/
def c4jobOld : JobR :=
  { ID := "j1", Namespace := "default", ModifyIndex := 1, JobModifyIndex := 1,
    Version := 0, Status := "running", TaskGroups := [] }

/-- A newer record of the same job. -/
def c4jobNew : JobR :=
  { ID := "j1", Namespace := "default", ModifyIndex := 2, JobModifyIndex := 2,
    Version := 0, Status := "running", TaskGroups := [] }

/-- Cache holding the older job record. -/
def c4db : Db :=
  { job := some c4jobOld, evaluations := [], allocations := [], deployments := [] }

/-- A Job-topic event carrying the newer job record. -/
def c4event : Event :=
  { type := EventType.JobRegistered, payload := EventPayload.job c4jobNew }

/-- An allocation record for the frame-effect instance. -/
def c5alloc : AllocR :=
  { ID := "a1", Namespace := "default", ModifyIndex := 5, EvalID := "e1",
    TaskGroup := "g", ClientStatus := "running", JobVersion := some 0,
    TaskStates := [] }

/-- Cache holding a job record, otherwise empty. -/
def c5db : Db :=
  { job := some c4jobOld, evaluations := [], allocations := [], deployments := [] }

/-- An Allocation-topic event of type `JobDeregistered`. -/
def c5event : Event :=
  { type := EventType.JobDeregistered, payload := EventPayload.alloc c5alloc }

/-- An evaluation record for the frame-effect witness. -/
def c5weval : EvalR :=
  { ID := "e9", Namespace := "default", ModifyIndex := 3, JobModifyIndex := some 5,
    Status := "complete", StatusDescription := "" }

/-- An Evaluation-topic event of type `JobDeregistered`. -/
def c5wevent : Event :=
  { type := EventType.JobDeregistered, payload := EventPayload.eval c5weval }

/-- A deregistration payload record of the watched job. -/
def c8jobD : JobR :=
  { ID := "j1", Namespace := "default", ModifyIndex := 5, JobModifyIndex := 5,
    Version := 0, Status := "dead", TaskGroups := [] }

/-- A Job-topic `JobDeregistered` event. -/
def c8event : Event :=
  { type := EventType.JobDeregistered, payload := EventPayload.job c8jobD }

/-- An Evaluation-topic event for the idempotence witness. -/
def c8wevent : Event :=
  { type := EventType.EvaluationUpdated, payload := EventPayload.eval c5weval }

/-- The empty cache. -/
def dbEmpty : Db :=
  { job := none, evaluations := [], allocations := [], deployments := [] }

/-- A job with an empty `TaskGroups` list. -/
def c3job : JobR :=
  { ID := "j3", Namespace := "default", ModifyIndex := 1, JobModifyIndex := 1,
    Version := 0, Status := "running", TaskGroups := [] }

/-- A main task with no lifecycle. -/
def c3wTaskM : TaskR := { Name := "m", Lifecycle := none }

/-- A prestart sidecar task (a main task). -/
def c3wTaskS : TaskR :=
  { Name := "s", Lifecycle := some { Hook := "prestart", Sidecar := some true } }

/-- A non-sidecar prestart task (not a main task). -/
def c3wTaskP : TaskR :=
  { Name := "p", Lifecycle := some { Hook := "prestart", Sidecar := none } }

/-- The task group of the sidecar scenario of the spec. -/
def c3wGroup : TaskGroupR := { Name := "g", Tasks := [c3wTaskM, c3wTaskS, c3wTaskP] }

/-- The watched job of the sidecar scenario. -/
def c3wJob : JobR :=
  { ID := "jw", Namespace := "default", ModifyIndex := 1, JobModifyIndex := 1,
    Version := 0, Status := "running", TaskGroups := [c3wGroup] }

/-- A task state carrying a `Started` event. -/
def startedTS : TaskStateR :=
  { State := "running",
    Events := [{ Type_ := "Started", Time := 1, DisplayMessage := "", ExitCode := none }] }

/-- A pending task state with no events. -/
def pendingTS : TaskStateR := { State := "pending", Events := [] }

/-- The allocation of the sidecar scenario: `m` and `s` started, `p`
not. -/
def c3wAlloc : AllocR :=
  { ID := "aw", Namespace := "default", ModifyIndex := 7, EvalID := "ew",
    TaskGroup := "g", ClientStatus := "running", JobVersion := some 0,
    TaskStates := [("m", startedTS), ("s", startedTS), ("p", pendingTS)] }

/-- The cache of the sidecar scenario. -/
def c3wDb : Db :=
  { job := some c3wJob, evaluations := [], allocations := [("aw", c3wAlloc)],
    deployments := [] }

/-- A pending evaluation record. -/
def c9pending : EvalR :=
  { ID := "ev1", Namespace := "default", ModifyIndex := 1, JobModifyIndex := none,
    Status := "pending", StatusDescription := "" }

/-- A failed evaluation record with a status description. -/
def c9eval : EvalR :=
  { ID := "ev1", Namespace := "default", ModifyIndex := 2, JobModifyIndex := none,
    Status := "failed", StatusDescription := "exhausted nodes" }

/-- Batches consumed by the evaluation waiter instance. -/
def c9batches : List (List EvalR) := [[c9pending], [c9eval]]

/-! Helper lemmas shared by the claim theorems. -/

theorem alookup_assocSet_self {α : Type} (l : List (String × α)) (k : String) (v : α) :
    alookup (assocSet l k v) k = some v := by
  induction l with
  | nil => simp [assocSet, alookup]
  | cons kv rest ih =>
    obtain ⟨k1, v1⟩ := kv
    by_cases h : k1 = k
    · simp [assocSet, h, alookup]
    · simp [assocSet, h, alookup, ih]

theorem alookup_assocSet_isSome {α : Type} (l : List (String × α)) (k : String)
    (v : α) (k2 : String) (h : (alookup l k2).isSome = true) :
    (alookup (assocSet l k v) k2).isSome = true := by
  induction l with
  | nil => simp [alookup] at h
  | cons kv rest ih =>
    obtain ⟨k1, v1⟩ := kv
    by_cases h1 : k1 = k
    · subst h1
      by_cases h2 : k1 = k2
      · simp [assocSet, alookup, h2]
      · simp [alookup, h2] at h
        simp [assocSet, alookup, h2, h]
    · by_cases h2 : k1 = k2
      · have h3 : ¬k2 = k := fun hh => h1 (h2.trans hh)
        simp [assocSet, alookup, h1, h2, h3]
      · simp [alookup, h2] at h
        simp [assocSet, alookup, h1, h2, ih h]

theorem select_new_event_iff (ns : String) (db : Db) (e : Event) :
    Db.select_new_event ns db e = true ↔
      (e.Namespace = ns ∧
        (cachedModifyIndex db e = none ∨
          ∃ m, cachedModifyIndex db e = some m ∧ m < e.modifyIndex)) := by
  obtain ⟨t, p⟩ := e
  cases p with
  | job j =>
    cases hdb : db.job <;>
      simp [Db.select_new_event, cachedModifyIndex, Event.Namespace, Event.modifyIndex, hdb]
  | eval v =>
    cases hl : alookup db.evaluations v.ID <;>
      simp [Db.select_new_event, cachedModifyIndex, Event.Namespace, Event.modifyIndex, hl]
  | alloc a =>
    cases hl : alookup db.allocations a.ID <;>
      simp [Db.select_new_event, cachedModifyIndex, Event.Namespace, Event.modifyIndex, hl]
  | deploy d =>
    cases hl : alookup db.deployments d.ID <;>
      simp [Db.select_new_event, cachedModifyIndex, Event.Namespace, Event.modifyIndex, hl]

theorem handle_event_snd_iff (ns : String) (cb : Event → Bool) (db : Db) (e : Event) :
    (Db.handle_event ns cb db e).2 = true ↔
      (Db.select_new_event ns db e = true ∧
        (Db.select_is_in_db db e = true ∨ cb e = true)) := by
  unfold Db.handle_event
  split
  · split
    · simp_all
    · simp_all
  · simp_all

theorem handle_event_fst_of_accepted (ns : String) (cb : Event → Bool) (db : Db)
    (e : Event) (h : (Db.handle_event ns cb db e).2 = true) :
    (Db.handle_event ns cb db e).1 = Db.add_event_to_db db e := by
  unfold Db.handle_event at h ⊢
  split at h
  · split at h
    · simp_all
    · simp_all
  · simp_all

theorem handle_event_fst_of_rejected (ns : String) (cb : Event → Bool) (db : Db)
    (e : Event) (h : (Db.handle_event ns cb db e).2 = false) :
    (Db.handle_event ns cb db e).1 = db := by
  unfold Db.handle_event at h ⊢
  split at h
  · split at h
    · simp_all
    · simp_all
  · simp_all

theorem noActive_iff (db : Db) :
    noActiveAllocationsEvaluationsDeployments db = true ↔
      ((∀ kv ∈ db.allocations,
          ¬(kv.2.ClientStatus = "pending" ∨ kv.2.ClientStatus = "running")) ∧
       (∀ kv ∈ db.evaluations, kv.2.Status ≠ "pending") ∧
       (∀ kv ∈ db.deployments,
          kv.2.Status ∉ (["initializing", "running", "pending", "blocked",
            "paused"] : List String))) := by
  unfold noActiveAllocationsEvaluationsDeployments
  split_ifs with h1 h2 h3
  · simp only [Bool.false_eq_true, false_iff]
    intro hh
    rw [List.any_eq_true] at h1
    obtain ⟨kv, hmem, hkv⟩ := h1
    have hcl := hh.1 kv hmem
    unfold AllocR.is_pending_or_running at hkv
    simp only [Bool.or_eq_true, beq_iff_eq] at hkv
    exact hcl hkv
  · simp only [Bool.false_eq_true, false_iff]
    intro hh
    rw [List.any_eq_true] at h2
    obtain ⟨kv, hmem, hkv⟩ := h2
    have hcl := hh.2.1 kv hmem
    unfold EvalR.is_pending at hkv
    rw [beq_iff_eq] at hkv
    exact hcl hkv
  · simp only [Bool.false_eq_true, false_iff]
    intro hh
    rw [List.any_eq_true] at h3
    obtain ⟨kv, hmem, hkv⟩ := h3
    rw [decide_eq_true_iff] at hkv
    exact (hh.2.2 kv hmem) hkv
  · simp only [true_iff]
    rw [List.any_eq_true] at h1 h2 h3
    push_neg at h1 h2 h3
    refine ⟨?_, ?_, ?_⟩
    · intro kv hmem hcon
      have hx := h1 kv hmem
      refine hx ?_
      unfold AllocR.is_pending_or_running
      rcases hcon with hc | hc <;> simp [hc]
    · intro kv hmem hcon
      have hx := h2 kv hmem
      refine hx ?_
      unfold EvalR.is_pending
      simp [hcon]
    · intro kv hmem hcon
      exact (h3 kv hmem) (decide_eq_true hcon)

theorem finish_cb_after_iff (s : UntilFinished) :
    UntilFinished.finish_cb_after s = true ↔
      (noActiveAllocationsEvaluationsDeployments s.db = true ∧
        ((s.purged = true ∧ s.db.job = none) ∨
          (s.purged = false ∧ s.job.Status = "dead"))) := by
  unfold UntilFinished.finish_cb_after JobR.is_dead
  split_ifs with h1 h2 h3 h4 <;>
    simp_all [Option.isNone_iff_eq_none, Bool.not_eq_true]

/-- C1: the aggregate exit-code mapper classifies the per-task exit
codes (with `-1` standing in for a task whose exit code was never
captured) by the case table of the spec, the cases tested in exactly
that order: empty gives 127, any unfinished gives 126, a singleton
passes through its sole element, all nonzero gives 125, some nonzero
gives 124, otherwise 0. -/
theorem exitcode_case_table (ths : List (Option Int)) :
    AllocWorkers.exitcode ths =
      (if exitList ths = [] then 127
       else if (-1 : Int) ∈ exitList ths then 126
       else if (exitList ths).length = 1 then (exitList ths).headI
       else if ∀ v ∈ exitList ths, v ≠ 0 then 125
       else if ∃ v ∈ exitList ths, v ≠ 0 then 124
       else 0) := by
  simp only [AllocWorkers.exitcode, exitList]
  refine if_congr (by simp [List.length_eq_zero]) rfl
    (if_congr (by simp) rfl
      (if_congr Iff.rfl rfl
        (if_congr (by simp) rfl
          (if_congr (by simp) rfl rfl))))

/-- C2 (counterexample): with a purge issued, the Job record still
cached and dead, and no active allocations, evaluations or deployments,
`finish_cb` returns false although the claimed condition — observed at
least once, no active work, and clause (b) `Status == dead` of the
disjunction — holds, refuting the claimed equivalence. -/
theorem finish_cb_purged_dead_cex :
    (UntilFinished.finish_cb c2state).1 = false ∧
    ((c2state.db.job.isSome = true ∨ c2state.foundjob = true) ∧
      (∀ kv ∈ c2state.db.allocations,
        ¬(kv.2.ClientStatus = "pending" ∨ kv.2.ClientStatus = "running")) ∧
      (∀ kv ∈ c2state.db.evaluations, kv.2.Status ≠ "pending") ∧
      (∀ kv ∈ c2state.db.deployments,
        kv.2.Status ∉ (["initializing", "running", "pending", "blocked",
          "paused"] : List String)) ∧
      ((c2state.purged = true ∧ c2state.db.job = none) ∨
        c2state.job.Status = "dead")) := by
  refine ⟨by decide, Or.inl (by decide), ?_, ?_, ?_, Or.inr (by decide)⟩ <;>
    simp [c2state]

/-- C2 (amended): `finish_cb` returns true iff the Job record has been
observed at least once, no cached allocation is pending or running, no
cached evaluation is pending, no cached deployment is in an active
status, and either a purge was issued and the cached Job record has
been cleared, or no purge was issued and the watcher job snapshot shows
`Status == dead` (a purging watcher ignores clause (b)). -/
theorem finish_cb_characterization (s : UntilFinished) :
    (UntilFinished.finish_cb s).1 = true ↔
      ((s.db.job.isSome = true ∨ s.foundjob = true) ∧
       (∀ kv ∈ s.db.allocations,
          ¬(kv.2.ClientStatus = "pending" ∨ kv.2.ClientStatus = "running")) ∧
       (∀ kv ∈ s.db.evaluations, kv.2.Status ≠ "pending") ∧
       (∀ kv ∈ s.db.deployments,
          kv.2.Status ∉ (["initializing", "running", "pending", "blocked",
            "paused"] : List String)) ∧
       ((s.purged = true ∧ s.db.job = none) ∨
         (s.purged = false ∧ s.job.Status = "dead"))) := by
  unfold UntilFinished.finish_cb
  split_ifs with h1 h2
  · rw [finish_cb_after_iff, noActive_iff]
    simp only []
    constructor
    · rintro ⟨⟨ha, hb, hc⟩, hd⟩
      exact ⟨Or.inl h1, ha, hb, hc, hd⟩
    · rintro ⟨_, ha, hb, hc, hd⟩
      exact ⟨⟨ha, hb, hc⟩, hd⟩
  · simp only [Bool.false_eq_true, false_iff]
    rintro ⟨hfound, _⟩
    rcases hfound with hj | hf
    · exact h1 hj
    · rw [h2] at hf
      exact Bool.false_ne_true hf
  · rw [finish_cb_after_iff, noActive_iff]
    have hf : s.foundjob = true := by
      cases hx : s.foundjob
      · exact absurd hx h2
      · rfl
    constructor
    · rintro ⟨⟨ha, hb, hc⟩, hd⟩
      exact ⟨Or.inr hf, ha, hb, hc, hd⟩
    · rintro ⟨_, ha, hb, hc, hd⟩
      exact ⟨⟨ha, hb, hc⟩, hd⟩

/-- C4 (counterexample): a Job-topic event for the already-cached job
with a strictly greater `ModifyIndex`, in the configured namespace, is
rejected when `select_event_cb` returns false, although the claim — the
identity is already in the cache — says it must be accepted:
`select_is_in_db` never recognises Job-topic events. -/
theorem handle_event_job_cached_cex :
    (Db.handle_event "default" (fun _ => false) c4db c4event).2 = false ∧
    (c4event.Namespace = "default" ∧
      (∃ m, cachedModifyIndex c4db c4event = some m ∧ m < c4event.modifyIndex) ∧
      (cachedModifyIndex c4db c4event).isSome = true) := by
  exact ⟨by decide, by decide, ⟨1, by decide, by decide⟩, by decide⟩

/-- C4 (amended): `handle_event` accepts an event iff its `Namespace`
equals the configured one, its identity is unknown to the cache or its
`ModifyIndex` strictly exceeds the cached record's, and either it is an
Evaluation/Allocation/Deployment event whose identity is already in its
per-kind map (`select_is_in_db`, which is never true for Job-topic
events) or `select_event_cb` accepts it; a rejected event leaves the
cache unchanged. -/
theorem handle_event_characterization (ns : String) (cb : Event → Bool)
    (db : Db) (e : Event) :
    ((Db.handle_event ns cb db e).2 = true ↔
      (e.Namespace = ns ∧
        (cachedModifyIndex db e = none ∨
          ∃ m, cachedModifyIndex db e = some m ∧ m < e.modifyIndex) ∧
        (Db.select_is_in_db db e = true ∨ cb e = true))) ∧
    ((Db.handle_event ns cb db e).2 = false →
      (Db.handle_event ns cb db e).1 = db) := by
  constructor
  · rw [handle_event_snd_iff, select_new_event_iff]
    tauto
  · exact handle_event_fst_of_rejected ns cb db e

/-- C4 (witness): the amended characterization applied at a concrete
rejected event, concluding that the cache is unchanged. -/
theorem handle_event_characterization_witness :
    (Db.handle_event "default" (fun _ => false) c4db c4event).1 = c4db := by
  have h := handle_event_characterization "default" (fun _ => false) c4db c4event
  exact h.2 (by decide)

/-- C5 (counterexample): an accepted Allocation-topic event of type
`JobDeregistered` does not clear the Job slot, refuting the claim that
the event clears it on any of the four entity kinds (the code clears it
only on the Job and Evaluation topics). -/
theorem jobderegistered_alloc_keeps_job_cex :
    (Db.handle_event "default" (fun _ => true) c5db c5event).2 = true ∧
    c5event.type = EventType.JobDeregistered ∧
    (Db.handle_event "default" (fun _ => true) c5db c5event).1.job ≠ none := by
  exact ⟨by decide, by decide, by decide⟩

/-- C5 (amended): for an accepted `JobDeregistered` event, the Job slot
is cleared when the event arrives on the Job or Evaluation kinds and is
untouched on the Allocation and Deployment kinds; in every case the
evaluations, allocations and deployments maps lose no entry, and an
Evaluation/Allocation/Deployment event's own record is stored in its
per-kind map. -/
theorem jobderegistered_frame_effect (ns : String) (cb : Event → Bool)
    (db : Db) (e : Event)
    (htype : e.type = EventType.JobDeregistered)
    (hacc : (Db.handle_event ns cb db e).2 = true) :
    (∀ j, e.payload = EventPayload.job j →
      (Db.handle_event ns cb db e).1.job = none) ∧
    (∀ v, e.payload = EventPayload.eval v →
      (Db.handle_event ns cb db e).1.job = none ∧
      alookup (Db.handle_event ns cb db e).1.evaluations v.ID = some v) ∧
    (∀ a, e.payload = EventPayload.alloc a →
      (Db.handle_event ns cb db e).1.job = db.job ∧
      alookup (Db.handle_event ns cb db e).1.allocations a.ID = some a) ∧
    (∀ d, e.payload = EventPayload.deploy d →
      (Db.handle_event ns cb db e).1.job = db.job ∧
      alookup (Db.handle_event ns cb db e).1.deployments d.ID = some d) ∧
    (∀ k, (alookup db.evaluations k).isSome = true →
      (alookup (Db.handle_event ns cb db e).1.evaluations k).isSome = true) ∧
    (∀ k, (alookup db.allocations k).isSome = true →
      (alookup (Db.handle_event ns cb db e).1.allocations k).isSome = true) ∧
    (∀ k, (alookup db.deployments k).isSome = true →
      (alookup (Db.handle_event ns cb db e).1.deployments k).isSome = true) := by
  rw [handle_event_fst_of_accepted ns cb db e hacc]
  obtain ⟨t, p⟩ := e
  simp only [Event.mk.injEq] at htype ⊢
  subst htype
  cases p with
  | job j =>
    refine ⟨fun x hx => by simp [Db.add_event_to_db], fun x hx => by simp at hx,
      fun x hx => by simp at hx, fun x hx => by simp at hx,
      fun k hk => by simpa [Db.add_event_to_db] using hk,
      fun k hk => by simpa [Db.add_event_to_db] using hk,
      fun k hk => by simpa [Db.add_event_to_db] using hk⟩
  | eval v =>
    refine ⟨fun x hx => by simp at hx, fun x hx => ?_, fun x hx => by simp at hx,
      fun x hx => by simp at hx, fun k hk => ?_,
      fun k hk => by simpa [Db.add_event_to_db] using hk,
      fun k hk => by simpa [Db.add_event_to_db] using hk⟩
    · simp only [EventPayload.eval.injEq] at hx
      subst hx
      refine ⟨by simp [Db.add_event_to_db], ?_⟩
      simp only [Db.add_event_to_db]
      simpa using alookup_assocSet_self db.evaluations v.ID v
    · simp only [Db.add_event_to_db]
      simpa using alookup_assocSet_isSome db.evaluations v.ID v k hk
  | alloc a =>
    refine ⟨fun x hx => by simp at hx, fun x hx => by simp at hx, fun x hx => ?_,
      fun x hx => by simp at hx,
      fun k hk => by simpa [Db.add_event_to_db] using hk, fun k hk => ?_,
      fun k hk => by simpa [Db.add_event_to_db] using hk⟩
    · simp only [EventPayload.alloc.injEq] at hx
      subst hx
      refine ⟨by simp [Db.add_event_to_db], ?_⟩
      simp only [Db.add_event_to_db]
      simpa using alookup_assocSet_self db.allocations a.ID a
    · simp only [Db.add_event_to_db]
      simpa using alookup_assocSet_isSome db.allocations a.ID a k hk
  | deploy d =>
    refine ⟨fun x hx => by simp at hx, fun x hx => by simp at hx,
      fun x hx => by simp at hx, fun x hx => ?_,
      fun k hk => by simpa [Db.add_event_to_db] using hk,
      fun k hk => by simpa [Db.add_event_to_db] using hk, fun k hk => ?_⟩
    · simp only [EventPayload.deploy.injEq] at hx
      subst hx
      refine ⟨by simp [Db.add_event_to_db], ?_⟩
      simp only [Db.add_event_to_db]
      simpa using alookup_assocSet_self db.deployments d.ID d
    · simp only [Db.add_event_to_db]
      simpa using alookup_assocSet_isSome db.deployments d.ID d k hk

/-- C5 (witness): the amended frame effect applied to a concrete
accepted Evaluation-topic `JobDeregistered` event. -/
theorem jobderegistered_frame_effect_witness :
    (Db.handle_event "default" (fun _ => true) c5db c5wevent).1.job = none ∧
    alookup (Db.handle_event "default" (fun _ => true) c5db c5wevent).1.evaluations
      c5weval.ID = some c5weval := by
  have h := jobderegistered_frame_effect "default" (fun _ => true) c5db c5wevent
    (by decide) (by decide)
  exact h.2.1 c5weval rfl

/-- C8 (counterexample): a Job-topic `JobDeregistered` event accepted
once is accepted and emitted again when fed a second time (the cleared
Job slot makes it look new again), refuting the claim that the second
feeding produces no output element. -/
theorem ingest_twice_jobderegistered_cex :
    (Db.handle_event "default" (fun _ => true) c5db c8event).2 = true ∧
    (Db.handle_event "default" (fun _ => true)
      (Db.handle_event "default" (fun _ => true) c5db c8event).1 c8event).2 = true := by
  exact ⟨by decide, by decide⟩

/-- C8 (amended): feeding an event again immediately after it was
accepted leaves the whole cache state unchanged, and the second feeding
is rejected — produces no output element — except for a Job-topic
`JobDeregistered` event, which is accepted and re-emitted (still
without changing the state). -/
theorem ingest_idempotent_characterization (ns : String) (cb : Event → Bool)
    (db : Db) (e : Event)
    (hacc : (Db.handle_event ns cb db e).2 = true) :
    (Db.handle_event ns cb (Db.handle_event ns cb db e).1 e).1 =
      (Db.handle_event ns cb db e).1 ∧
    ((Db.handle_event ns cb (Db.handle_event ns cb db e).1 e).2 = true ↔
      (e.type = EventType.JobDeregistered ∧ ∃ j, e.payload = EventPayload.job j)) := by
  have hfst := handle_event_fst_of_accepted ns cb db e hacc
  rw [handle_event_snd_iff] at hacc
  obtain ⟨hnew, hsel⟩ := hacc
  have hns : e.Namespace = ns := ((select_new_event_iff ns db e).mp hnew).1
  rw [hfst]
  obtain ⟨t, p⟩ := e
  cases p with
  | job j =>
    have hcb : cb ⟨t, EventPayload.job j⟩ = true := by
      rcases hsel with h | h
      · simp [Db.select_is_in_db] at h
      · exact h
    by_cases ht : t = EventType.JobDeregistered
    · subst ht
      have hadd : Db.add_event_to_db db ⟨EventType.JobDeregistered, EventPayload.job j⟩ =
          { db with job := none } := by
        simp [Db.add_event_to_db]
      rw [hadd]
      have hnsj : j.Namespace = ns := by simpa [Event.Namespace] using hns
      have hnew2 : Db.select_new_event ns { db with job := none }
          ⟨EventType.JobDeregistered, EventPayload.job j⟩ = true := by
        simp [Db.select_new_event, Event.Namespace, hnsj]
      constructor
      · simp [Db.handle_event, hnew2, Db.select_is_in_db, hcb, Db.add_event_to_db]
      · simp [Db.handle_event, hnew2, Db.select_is_in_db, hcb]
    · have hadd : Db.add_event_to_db db ⟨t, EventPayload.job j⟩ =
          { db with job := some j } := by
        simp [Db.add_event_to_db, ht]
      rw [hadd]
      have hnew2 : Db.select_new_event ns { db with job := some j }
          ⟨t, EventPayload.job j⟩ = false := by
        simp [Db.select_new_event]
      constructor
      · simp [Db.handle_event, hnew2]
      · simp [Db.handle_event, hnew2, ht]
  | eval v =>
    have hlook : alookup (Db.add_event_to_db db ⟨t, EventPayload.eval v⟩).evaluations
        v.ID = some v := by
      by_cases ht : t = EventType.JobDeregistered <;>
        simp [Db.add_event_to_db, ht, alookup_assocSet_self]
    have hnew2 : Db.select_new_event ns (Db.add_event_to_db db ⟨t, EventPayload.eval v⟩)
        ⟨t, EventPayload.eval v⟩ = false := by
      simp [Db.select_new_event, hlook]
    constructor
    · simp [Db.handle_event, hnew2]
    · simp [Db.handle_event, hnew2]
  | alloc a =>
    have hlook : alookup (Db.add_event_to_db db ⟨t, EventPayload.alloc a⟩).allocations
        a.ID = some a := by
      simp [Db.add_event_to_db, alookup_assocSet_self]
    have hnew2 : Db.select_new_event ns (Db.add_event_to_db db ⟨t, EventPayload.alloc a⟩)
        ⟨t, EventPayload.alloc a⟩ = false := by
      simp [Db.select_new_event, hlook]
    constructor
    · simp [Db.handle_event, hnew2]
    · simp [Db.handle_event, hnew2]
  | deploy d =>
    have hlook : alookup (Db.add_event_to_db db ⟨t, EventPayload.deploy d⟩).deployments
        d.ID = some d := by
      simp [Db.add_event_to_db, alookup_assocSet_self]
    have hnew2 : Db.select_new_event ns (Db.add_event_to_db db ⟨t, EventPayload.deploy d⟩)
        ⟨t, EventPayload.deploy d⟩ = false := by
      simp [Db.select_new_event, hlook]
    constructor
    · simp [Db.handle_event, hnew2]
    · simp [Db.handle_event, hnew2]

/-- C8 (witness): the amended idempotence applied to a concrete
accepted evaluation event: the second feeding changes nothing and is
rejected. -/
theorem ingest_idempotent_characterization_witness :
    (Db.handle_event "default" (fun _ => true)
      (Db.handle_event "default" (fun _ => true) dbEmpty c8wevent).1 c8wevent).1 =
      (Db.handle_event "default" (fun _ => true) dbEmpty c8wevent).1 ∧
    (Db.handle_event "default" (fun _ => true)
      (Db.handle_event "default" (fun _ => true) dbEmpty c8wevent).1 c8wevent).2 = false := by
  have h := ingest_idempotent_characterization "default" (fun _ => true) dbEmpty
    c8wevent (by decide)
  refine ⟨h.1, ?_⟩
  cases hb : (Db.handle_event "default" (fun _ => true)
      (Db.handle_event "default" (fun _ => true) dbEmpty c8wevent).1 c8wevent).2
  · rfl
  · have := h.2.mp hb
    simp [c8wevent] at this

/-- C7 (counterexample): a dead job whose aggregated summary metrics
satisfy the claimed condition (`Queued`, `Failed`, `Starting`, `Lost`
all zero and `Complete` nonzero) is not classified as finished
successfully, because `Running` is nonzero — the code additionally
requires `Running == 0`, refuting the claimed equivalence. -/
theorem job_success_classifiers_cex :
    job_finished_successfully "dead" c7sum = false ∧
    (c7sum.Queued = 0 ∧ c7sum.Failed = 0 ∧ c7sum.Starting = 0 ∧
      c7sum.Lost = 0 ∧ c7sum.Complete ≠ 0) := by
  refine ⟨by decide, by decide, by decide, by decide, by decide, by decide⟩

/-- C7 (amended): `job_finished_successfully` returns true iff the job
snapshot status is dead and the aggregated metrics satisfy
`Queued == 0`, `Complete != 0`, `Failed == 0`, `Running == 0`,
`Starting == 0`, `Lost == 0`; `job_running_successfully` returns true
iff either the status is dead and that same finished condition holds,
or the status is not dead and the metrics satisfy `Queued == 0`,
`Failed == 0`, `Running != 0`, `Starting == 0`, `Lost == 0`. -/
theorem job_success_classifiers_characterization (jobStatus : String)
    (s : JobSummarySummary) :
    (job_finished_successfully jobStatus s = true ↔
      (jobStatus = "dead" ∧ s.Queued = 0 ∧ s.Complete ≠ 0 ∧ s.Failed = 0 ∧
        s.Running = 0 ∧ s.Starting = 0 ∧ s.Lost = 0)) ∧
    (job_running_successfully jobStatus s = true ↔
      ((jobStatus = "dead" ∧ s.Queued = 0 ∧ s.Complete ≠ 0 ∧ s.Failed = 0 ∧
        s.Running = 0 ∧ s.Starting = 0 ∧ s.Lost = 0) ∨
       (jobStatus ≠ "dead" ∧ s.Queued = 0 ∧ s.Failed = 0 ∧ s.Running ≠ 0 ∧
        s.Starting = 0 ∧ s.Lost = 0))) := by
  unfold job_running_successfully job_finished_successfully
  by_cases h : jobStatus = "dead" <;> simp [h] <;> tauto

theorem newestAlloc_eq_none (l : List AllocR) : newestAlloc l = none ↔ l = [] := by
  cases l <;> simp [newestAlloc]

theorem job_is_started_go_iff (job : JobR) (db : Db) (l : List TaskGroupR)
    (hmain : ∀ g ∈ l, allmaintasks g ≠ []) :
    job_is_started_go job db l = some true ↔
      ∀ g ∈ l, (groupAllocs job db g ≠ [] ∧
        ∃ la, newestAlloc (groupAllocs job db g) = some la ∧
          ∀ n ∈ allmaintasks g, n ∈ startedtasks la) := by
  induction l with
  | nil => simp [job_is_started_go]
  | cons g rest ih =>
    have hg : allmaintasks g ≠ [] := hmain g (List.mem_cons_self g rest)
    have hrest : ∀ g2 ∈ rest, allmaintasks g2 ≠ [] :=
      fun g2 h2 => hmain g2 (List.mem_cons_of_mem g h2)
    have hlen : ¬(allmaintasks g).length = 0 := by
      simpa [List.length_eq_zero] using hg
    cases hna : newestAlloc (groupAllocs job db g) with
    | none =>
      have hempty : groupAllocs job db g = [] := (newestAlloc_eq_none _).mp hna
      simp only [job_is_started_go, hna]
      simp [hempty]
    | some la =>
      simp only [job_is_started_go, hna, if_neg hlen]
      by_cases hbad :
          (allmaintasks g).any (fun n => !decide (n ∈ startedtasks la)) = true
      · rw [if_pos hbad]
        constructor
        · intro hcon
          simp at hcon
        · intro hall
          exfalso
          obtain ⟨n, hn, hns⟩ := List.any_eq_true.mp hbad
          have hnotin : ¬n ∈ startedtasks la := by simpa using hns
          obtain ⟨_, la2, hla2, hstart⟩ := hall g (List.mem_cons_self g rest)
          rw [hna, Option.some.injEq] at hla2
          subst hla2
          exact hnotin (hstart n hn)
      · rw [if_neg hbad, ih hrest]
        constructor
        · intro hall g2 hg2
          rcases List.mem_cons.mp hg2 with hq | hmem
          · subst hq
            refine ⟨?_, la, hna, ?_⟩
            · intro hcon
              rw [hcon] at hna
              simp [newestAlloc] at hna
            · intro n hn
              by_contra hnot
              exact hbad (List.any_eq_true.mpr ⟨n, hn, by simpa using hnot⟩)
          · exact hall g2 hmem
        · intro hall g2 hg2
          exact hall g2 (List.mem_cons_of_mem g hg2)

/-- C3 (counterexample): a watched job whose `TaskGroups` list is empty
is not reported started although the claimed condition — a universal
statement over all task groups — holds vacuously, refuting the claimed
equivalence. -/
theorem job_is_started_vacuous_cex :
    job_is_started c3job dbEmpty = some false ∧
    (∀ g ∈ c3job.TaskGroups, (groupAllocs c3job dbEmpty g ≠ [] ∧
      ∃ la, newestAlloc (groupAllocs c3job dbEmpty g) = some la ∧
        ∀ n ∈ allmaintasks g, n ∈ startedtasks la)) := by
  constructor
  · decide
  · intro g hg
    simp [c3job] at hg

/-- C3 (amended): provided the job has at least one task group and
every task group has at least one main task (otherwise the code fails
an assertion), `job_is_started` returns true iff for every task group
there is at least one cached allocation passing the job-version filter
and, in the group's most recently modified such allocation, every main
task — no lifecycle, prestart with sidecar, or poststart — has a
`Started` event; with an empty `TaskGroups` list it returns false even
though the universal condition is vacuous. -/
theorem job_is_started_characterization (job : JobR) (db : Db)
    (hmain : ∀ g ∈ job.TaskGroups, allmaintasks g ≠ []) :
    job_is_started job db = some true ↔
      (job.TaskGroups ≠ [] ∧
        ∀ g ∈ job.TaskGroups, (groupAllocs job db g ≠ [] ∧
          ∃ la, newestAlloc (groupAllocs job db g) = some la ∧
            ∀ n ∈ allmaintasks g, n ∈ startedtasks la)) := by
  unfold job_is_started
  by_cases he : job.TaskGroups.isEmpty
  · have hnil : job.TaskGroups = [] := by
      cases hl : job.TaskGroups
      · rfl
      · rw [hl] at he
        simp at he
    simp [he, hnil]
  · have hne : job.TaskGroups ≠ [] := by
      intro hcon
      rw [hcon] at he
      simp at he
    rw [if_neg he, job_is_started_go_iff job db _ hmain]
    simp [hne]

/-- C3 (witness): the sidecar scenario of the spec — main task `m` and
prestart sidecar `s` started, non-sidecar prestart task `p` ignored —
is reported started, by the amended characterization. -/
theorem job_is_started_characterization_witness :
    job_is_started c3wJob c3wDb = some true := by
  rw [job_is_started_characterization c3wJob c3wDb (by decide)]
  refine ⟨by decide, ?_⟩
  intro g hg
  have hq : g = c3wGroup := by
    simpa [c3wJob] using hg
  subst hq
  exact ⟨by decide, c3wAlloc, by decide, by decide⟩

/-- C10: a watched job whose `TaskGroups` list is empty is never
reported started by `job_is_started`, although the universal condition
over task groups would hold vacuously. -/
theorem job_is_started_no_taskgroups (job : JobR) (db : Db)
    (h : job.TaskGroups = []) :
    job_is_started job db = some false := by
  unfold job_is_started
  simp [h]

/-- C10 (witness): the empty-groups theorem applied to a concrete job
and cache. -/
theorem job_is_started_no_taskgroups_witness :
    job_is_started c3job c3wDb = some false := by
  exact job_is_started_no_taskgroups c3job c3wDb rfl

/-- C6 (counterexample): inside the quiet window (`lines = 1`, deadline
100, now 50), a two-line batch leaves the first line `a` in the buffer,
not the most recent line `b` as the claim states — the code trims with
a head slice — refuting the claimed buffer content. -/
theorem taskout_first_lines_cex :
    (Logger.taskout 1 50 ⟨100, false, []⟩ ["a", "b"]).2 = [] ∧
    (Logger.taskout 1 50 ⟨100, false, []⟩ ["a", "b"]).1.ignoredlines = ["a"] ∧
    (["a"] : List String) ≠ ["b"] := by
  exact ⟨by decide, by decide, by decide⟩

/-- C6 (amended): while the ignore deadline is set and either this is
the very first call or the deadline has not passed, `taskout` prints
nothing and replaces the buffer with the batch trimmed to its first
`lines` lines; on the first later call once the deadline passed, the
buffered lines are printed followed by the new batch and accumulation
is disabled; afterwards every batch is printed line-by-line with the
state unchanged. -/
theorem taskout_phases (linesArg : Int) (now : Nat) (s : LoggerState)
    (batch : List String) :
    (s.ignoretime_ns ≠ 0 → 0 ≤ linesArg →
      (s.first_line = true ∨ now < s.ignoretime_ns) →
      Logger.taskout linesArg now s batch =
        ({ s with
            first_line := false
            ignoredlines := batch.take linesArg.toNat }, [])) ∧
    (s.ignoretime_ns ≠ 0 → s.first_line = false → s.ignoretime_ns ≤ now →
      Logger.taskout linesArg now s batch =
        ({ s with ignoredlines := [], ignoretime_ns := 0 },
          (s.ignoredlines ++ batch).map pyRstrip)) ∧
    (s.ignoretime_ns = 0 →
      Logger.taskout linesArg now s batch = (s, batch.map pyRstrip)) := by
  refine ⟨?_, ?_, ?_⟩
  · intro h1 h2 h3
    unfold Logger.taskout
    rw [if_pos ⟨h1, h3⟩]
    simp [pySliceTo, h2]
  · intro h1 h2 h3
    have hcond :
        ¬(s.ignoretime_ns ≠ 0 ∧ (s.first_line = true ∨ now < s.ignoretime_ns)) := by
      rintro ⟨_, hfl | hlt⟩
      · rw [h2] at hfl
        exact Bool.false_ne_true hfl
      · omega
    unfold Logger.taskout
    rw [if_neg hcond, if_pos h1]
  · intro h1
    have hcond :
        ¬(s.ignoretime_ns ≠ 0 ∧ (s.first_line = true ∨ now < s.ignoretime_ns)) :=
      fun hc => hc.1 h1
    unfold Logger.taskout
    rw [if_neg hcond, if_neg (fun hh : s.ignoretime_ns ≠ 0 => hh h1)]

/-- C6 (witness): the amended phase description applied to a concrete
flush call: past the deadline the buffered line is printed before the
new batch and accumulation is disabled. -/
theorem taskout_phases_witness :
    Logger.taskout 2 150 ⟨100, false, ["b1"]⟩ ["c"] =
      (⟨0, false, []⟩, ["b1", "c"]) := by
  have h := taskout_phases 2 150 ⟨100, false, ["b1"]⟩ ["c"]
  have h2 := h.2.1 (by decide) rfl (by decide)
  exact h2.trans (by decide)

theorem watch_eval_inner_find (b : List EvalR) (acc : Option EvalR) (e : EvalR)
    (h : b.find? (fun ev => decide (ev.Status ≠ "pending")) = some e) :
    watch_eval_inner acc b = some e ∧ e.Status ≠ "pending" := by
  induction b generalizing acc with
  | nil => simp at h
  | cons ev rest ih =>
    by_cases hp : ev.Status ≠ "pending"
    · rw [List.find?_cons_of_pos _ (by simpa using hp), Option.some.injEq] at h
      subst h
      rw [watch_eval_inner, if_pos hp]
      exact ⟨rfl, hp⟩
    · rw [List.find?_cons_of_neg _ (by simpa using hp)] at h
      rw [watch_eval_inner, if_neg hp]
      exact ih (some ev) h

theorem watch_eval_inner_pending (b : List EvalR) (acc : Option EvalR)
    (hfind : b.find? (fun ev => decide (ev.Status ≠ "pending")) = none)
    (hacc : ∀ a, acc = some a → ¬a.Status ≠ "pending") :
    ∀ a, watch_eval_inner acc b = some a → ¬a.Status ≠ "pending" := by
  induction b generalizing acc with
  | nil =>
    intro a ha
    exact hacc a (by simpa [watch_eval_inner] using ha)
  | cons ev rest ih =>
    intro a ha
    have hp : ¬ev.Status ≠ "pending" := by
      by_contra hc
      rw [List.find?_cons_of_pos _ (by simpa using hc)] at hfind
      simp at hfind
    rw [watch_eval_inner, if_neg hp] at ha
    rw [List.find?_cons_of_neg _ (by simpa using hp)] at hfind
    refine ih (some ev) hfind ?_ a ha
    intro a2 h2
    rw [Option.some.injEq] at h2
    subst h2
    exact hp

theorem watch_eval_scan_find (batches : List (List EvalR)) (e : EvalR) :
    ∀ acc, (∀ a, acc = some a → ¬a.Status ≠ "pending") →
      batches.flatten.find? (fun ev => decide (ev.Status ≠ "pending")) = some e →
      watch_eval_scan acc batches = some e := by
  induction batches with
  | nil =>
    intro acc hacc h
    simp at h
  | cons b bs ih =>
    intro acc hacc h
    rw [List.flatten_cons, List.find?_append] at h
    cases hb : b.find? (fun ev => decide (ev.Status ≠ "pending")) with
    | some e2 =>
      rw [hb] at h
      have he2 : e2 = e := by simpa using h
      subst he2
      obtain ⟨hinner, hstat⟩ := watch_eval_inner_find b acc e2 hb
      rw [watch_eval_scan, hinner]
      show (if e2.Status ≠ "pending" then some e2
        else watch_eval_scan (some e2) bs) = some e2
      rw [if_pos hstat]
    | none =>
      rw [hb] at h
      have h3 : bs.flatten.find? (fun ev => decide (ev.Status ≠ "pending")) = some e := by
        simpa using h
      cases hi : watch_eval_inner acc b with
      | none =>
        rw [watch_eval_scan, hi]
        show watch_eval_scan none bs = some e
        exact ih none (by intro a ha; simp at ha) h3
      | some e2 =>
        have hp : ¬e2.Status ≠ "pending" :=
          watch_eval_inner_pending b acc hb hacc e2 hi
        rw [watch_eval_scan, hi]
        show (if e2.Status ≠ "pending" then some e2
          else watch_eval_scan (some e2) bs) = some e
        rw [if_neg hp]
        refine ih (some e2) ?_ h3
        intro a2 ha2
        rw [Option.some.injEq] at ha2
        subst ha2
        exact hp

/-- C9: when the concatenated stream of consumed evaluation events has
a first event whose `Status` is no longer pending, the Evaluation
Waiter returns normally iff that status is `complete`, and otherwise
fails with an error message carrying the evaluation's
`StatusDescription`. -/
theorem nomad_watch_eval_spec (evalid : String) (batches : List (List EvalR))
    (e : EvalR)
    (h : batches.flatten.find? (fun ev => decide (ev.Status ≠ "pending")) = some e) :
    (nomad_watch_eval evalid batches = Except.ok () ↔ e.Status = "complete") ∧
    (e.Status ≠ "complete" →
      ∃ pre : String,
        nomad_watch_eval evalid batches =
          Except.error (pre ++ e.StatusDescription)) := by
  have hscan : watch_eval_scan none batches = some e :=
    watch_eval_scan_find batches e none (by intro a ha; simp at ha) h
  have hres : nomad_watch_eval evalid batches =
      (if e.Status = "complete" then Except.ok ()
       else Except.error ("Evaluation " ++ evalid ++ " did not complete: " ++
         e.StatusDescription)) := by
    unfold nomad_watch_eval
    rw [hscan]
  rw [hres]
  by_cases hc : e.Status = "complete"
  · rw [if_pos hc]
    exact ⟨by simp [hc], fun hcon => absurd hc hcon⟩
  · rw [if_neg hc]
    constructor
    · simp [hc]
    · intro _
      exact ⟨"Evaluation " ++ evalid ++ " did not complete: ", rfl⟩

/-- C9 (witness): the waiter specification applied to a concrete
stream whose first non-pending evaluation has failed: the waiter does
not return normally. -/
theorem nomad_watch_eval_spec_witness :
    ¬nomad_watch_eval "ev1" c9batches = Except.ok () := by
  have h := nomad_watch_eval_spec "ev1" c9batches c9eval (by decide)
  intro hok
  have hcomp := h.1.mp hok
  simp [c9eval] at hcomp

end NomadWatch
